import Mathlib

/-!
Verification of the sitemap crawler (src/main.py) against its specification.

The Python source is shallowly embedded: pure functions become Lean functions,
the regular expressions actually used in the source are embedded as executable
scanning functions with Python semantics (leftmost, non-overlapping matches,
greedy character classes with backtracking), network interaction becomes an
explicit oracle giving the outcome of each attempt, and the asyncio
queue/semaphore structure becomes explicit event traces.

Character classes model Python's str.lower, regex word characters and digits on
the ASCII range, which covers every input appearing in the program and in the
specification examples.
-/

/-- Python str.lower on the ASCII range, character by character. -/
def lowerChars (l : List Char) : List Char := l.map Char.toLower

/-- Python regex word character, ASCII range: letters, digits, underscore. -/
def isWordChar (c : Char) : Bool := c.isAlphanum || c == '_'

/-- The character class of the pattern in count_phrase_occurrences,
main.py line 19: whitespace plus the listed punctuation, a right double
quotation mark (U+201D), apostrophe (39), double quote (34) and a
closing parenthesis. -/
def punctClassChars : List Char :=
  [' ', '\t', '\n', '\r', Char.ofNat 11, Char.ofNat 12,
   '.', ',', '!', '?', ';', ':', Char.ofNat 39, Char.ofNat 34, Char.ofNat 8221, ')']

/-- Membership in the character class of main.py line 19. -/
def isPunctClassChar (c : Char) : Bool := punctClassChars.contains c

/-- Character of t at index i, if any, tested for being a word character. -/
def wordAt (t : List Char) (i : Nat) : Bool :=
  match t.get? i with
  | some c => isWordChar c
  | none => false

/-- Whether the character just before position i is a word character
(false at position 0, mirroring start-of-string). -/
def wordBefore (t : List Char) (i : Nat) : Bool :=
  match i with
  | 0 => false
  | j + 1 => wordAt t j

/-- Python regex word boundary at a position: exactly one of the two
neighbouring characters is a word character. -/
def wordBoundary (t : List Char) (i : Nat) : Bool :=
  wordBefore t i != wordAt t i

/-- Whether the first list occurs literally at the head of the second. -/
def listStartsWith : List Char → List Char → Bool
  | [], _ => true
  | _ :: _, [] => false
  | c :: cs, d :: ds => c == d && listStartsWith cs ds

/-- Length of the maximal run of punctuation-class characters at the head. -/
def punctRunLen : List Char → Nat
  | [] => 0
  | c :: cs => if isPunctClassChar c then punctRunLen cs + 1 else 0

/-- Greedy matching of the character-class star followed by a word boundary,
with backtracking: try consuming k characters, from the maximal run
downwards, and keep the largest k after which a word boundary holds. -/
def greedyPunct (t : List Char) (q : Nat) : Nat → Option Nat
  | 0 => if wordBoundary t q then some 0 else none
  | k + 1 => if wordBoundary t (q + (k + 1)) then some (k + 1) else greedyPunct t q k

/-- Attempt to match the pattern of count_phrase_occurrences at position i of t:
word boundary, then the literal phrase, then punctuation-class star, then a
word boundary.  Returns the length of the match if one exists. -/
def matchLenAt (t p : List Char) (i : Nat) : Option Nat :=
  if wordBoundary t i && listStartsWith p (t.drop i) then
    match greedyPunct t (i + p.length) (punctRunLen (t.drop (i + p.length))) with
    | some k => some (p.length + k)
    | none => none
  else none

/-- re.findall scanning: leftmost, non-overlapping matches; after an empty
match the scan advances one position, as CPython does. -/
def scanCountAux (t p : List Char) : Nat → Nat → Nat
  | 0, _ => 0
  | fuel + 1, i =>
    if i ≤ t.length then
      match matchLenAt t p i with
      | some L => 1 + scanCountAux t p fuel (i + max L 1)
      | none => scanCountAux t p fuel (i + 1)
    else 0

/-- main.py lines 16-20: count of re.findall matches of the pattern
built from the escaped, lower-cased phrase over the lower-cased text. -/
def count_phrase_occurrences (text phrase : String) : Nat :=
  scanCountAux (lowerChars text.data) (lowerChars phrase.data)
    ((lowerChars text.data).length + 1) 0

/-- Claim-side occurrence predicate, written from the specification's words:
a contiguous substring equal to the phrase, bounded on both sides by a
non-word character, start-of-string or end-of-string. -/
def boundedOccAt (t p : List Char) (i : Nat) : Bool :=
  listStartsWith p (t.drop i) && !(wordBefore t i) && !(wordAt t (i + p.length))

/-- Claim-side occurrence count, written from the specification's words:
the number of positions carrying a word-boundary-bounded occurrence of the
case-folded phrase in the case-folded text. -/
def specCountOccurrences (text phrase : String) : Nat :=
  (List.range ((lowerChars text.data).length + 1)).countP
    (fun i => boundedOccAt (lowerChars text.data) (lowerChars phrase.data) i)

/-! ### The in-pipeline phrase matcher, main.py lines 86-87 -/

/-- Python regex dollar anchor (no MULTILINE): matches at the end of the
string, or just before a newline that ends the string. -/
def dollarAt (t : List Char) (j : Nat) : Bool :=
  decide (j = t.length) ||
  (decide (j + 1 = t.length) &&
    (match t.get? j with
     | some c => c == '\n'
     | none => false))

/-- One position of the pattern (?<!\w)phrase(?!\w|$) of main.py line 86:
the literal phrase, not preceded by a word character, not followed by a word
character and not followed by a position where the dollar anchor matches. -/
def pipelineMatchAt (t p : List Char) (i : Nat) : Bool :=
  listStartsWith p (t.drop i) && !(wordBefore t i) &&
    !(wordAt t (i + p.length) || dollarAt t (i + p.length))

/-- re.findall scanning for the pattern of main.py line 86. -/
def pipelineScanAux (t p : List Char) : Nat → Nat → Nat
  | 0, _ => 0
  | fuel + 1, i =>
    if i ≤ t.length then
      (if pipelineMatchAt t p i then 1 + pipelineScanAux t p fuel (i + max p.length 1)
       else pipelineScanAux t p fuel (i + 1))
    else 0

/-- main.py lines 86-87: number of matches of the escaped lower-cased phrase
in the already lower-cased article text. -/
def pipelineCount (articleText : List Char) (phrase : String) : Nat :=
  pipelineScanAux articleText (lowerChars phrase.data)
    (articleText.length + 1) 0

/-- Python "\n".join over character lists,
as used for article_text in main.py line 75. -/
def joinNewline : List (List Char) → List Char
  | [] => []
  | [l] => l
  | l :: ls => l ++ '\n' :: joinNewline ls

/-! ### Date extraction, main.py lines 101-110 -/

/-- Parsed view of a fetched HTML page, as far as main.py reads it through
BeautifulSoup (an external collaborator per the specification): the text of
the sections matching the two content classes, the title string if a title
tag exists, and the two meta tags consulted by extract_date.  For a meta
field, none means the tag is absent; some c means the tag is present and its
content attribute is c (none inside meaning no content attribute). -/
structure Soup where
  sections : List String
  titleString : Option String
  metaPublished : Option (Option String)
  metaNameDate : Option (Option String)
deriving DecidableEq

/-- Exactly len decimal digits of t starting at index i. -/
def digitsAt (t : List Char) (i len : Nat) : Bool :=
  decide (i + len ≤ t.length) && ((t.drop i).take len).all Char.isDigit

/-- Character at index i of t equals c. -/
def charAtEq (t : List Char) (i : Nat) (c : Char) : Bool :=
  match t.get? i with
  | some c2 => c2 == c
  | none => false

/-- Leftmost match of the regex (\d{4})/(\d{2})/(\d{2}) of main.py line 109,
returning the three digit groups. -/
def searchUrlDate (url : String) : Option (String × String × String) :=
  match (List.range url.data.length).find? (fun i =>
      digitsAt url.data i 4 && charAtEq url.data (i + 4) '/' &&
      digitsAt url.data (i + 5) 2 && charAtEq url.data (i + 7) '/' &&
      digitsAt url.data (i + 8) 2) with
  | some i => some (String.mk ((url.data.drop i).take 4),
      String.mk ((url.data.drop (i + 5)).take 2),
      String.mk ((url.data.drop (i + 8)).take 2))
  | none => none

/-- main.py line 110: the URL fallback of extract_date — the first
YYYY/MM/DD pattern in the URL joined with dashes, else the Russian
sentinel "Неизвестно". -/
def urlDateOrUnknown (url : String) : String :=
  match searchUrlDate url with
  | some (y, m, d) => String.mk (y.data ++ '-' :: m.data ++ '-' :: d.data)
  | none => "Неизвестно"

/-- main.py lines 101-110: take the first meta tag among
property=article:published_time and name=date; if it exists and has a truthy
(non-empty) content attribute, return its first 10 characters, otherwise fall
back to the URL date pattern, then to the sentinel. -/
def extract_date (soup : Soup) (url : String) : String :=
  let meta_date := match soup.metaPublished with
    | some tag => some tag
    | none => soup.metaNameDate
  match meta_date with
  | some (some content) =>
    if content = "" then urlDateOrUnknown url
    else String.mk (content.data.take 10)
  | _ => urlDateOrUnknown url

/-- Leftmost match of the regex (\d{4})-(\d{2}) of main.py line 79,
group 0 (seven characters YYYY-MM). -/
def searchYearMonth (s : String) : Option String :=
  match (List.range s.data.length).find? (fun i =>
      digitsAt s.data i 4 && charAtEq s.data (i + 4) '-' &&
      digitsAt s.data (i + 5) 2) with
  | some i => some (String.mk ((s.data.drop i).take 7))
  | none => none

/-- main.py lines 79-84: the last_month_seen cell after processing one
date_published value (the logging side effect is dropped). -/
def monthUpdate (lastMonth datePublished : String) : String :=
  match searchYearMonth datePublished with
  | some current => current
  | none => lastMonth

/-! ### The page fetcher, main.py lines 60-99 -/

/-- A row of the articles table / an entry put on the queue,
main.py line 90. -/
structure MatchRecord where
  url : String
  title : String
  phrase : String
  count : Nat
  datePublished : String
deriving DecidableEq

/-- Events emitted by the embedded fetch operations, in program order:
semaphore acquisition and release, an in-flight network request, parsing the
response body, running the phrase matcher, a backoff sleep, and a queue put. -/
inductive Ev where
  | acquire
  | release
  | request
  | parse
  | matchPhrase
  | sleep (d : Nat)
  | enqueue (r : MatchRecord)
deriving DecidableEq

/-- Outcome of one network attempt for an article page: a 200 response with a
parseable body, a 200 response whose body makes parsing raise, a response
with a non-200 status code, or a transport-level exception
(timeout / connection error). -/
inductive AttemptOutcome where
  | ok (soup : Soup)
  | okMalformed
  | status (code : Nat)
  | exc

/-- Result of one extract_text_from_url call: the returned value, the queue
puts, the backoff sleeps in order, the number of network attempts issued, the
full event trace and the final last_month_seen cell. -/
structure FetchResult where
  result : Option String
  queued : List MatchRecord
  sleeps : List Nat
  requests : Nat
  events : List Ev
  lastMonth : String
deriving DecidableEq

/-- The for-attempt-in-range(3) loop of main.py lines 63-98, over the list of
remaining attempt indices.  A 200 response is parsed; the phrase pattern of
line 86 is run over the lower-cased section texts joined by newlines; on a
positive count the record is enqueued and the url returned, else None is
returned.  A 429/500 status or an exception (which also covers a parse error
inside the try block) sleeps 2^attempt and moves to the next attempt; any
other status moves to the next attempt with no sleep.  Falling off the loop
returns None. -/
def fetchAttempts (oracle : Nat → AttemptOutcome) (url phrase : String) :
    List Nat → String → FetchResult
  | [], lastMonth => ⟨none, [], [], 0, [], lastMonth⟩
  | attempt :: rest, lastMonth =>
    match oracle attempt with
    | AttemptOutcome.ok soup =>
      let articleText := joinNewline (soup.sections.map (fun s => lowerChars s.data))
      let title := soup.titleString.getD "Без заголовка"
      let date_published := extract_date soup url
      let lm := monthUpdate lastMonth date_published
      let occurrences := pipelineCount articleText phrase
      if occurrences > 0 then
        ⟨some url, [⟨url, title, phrase, occurrences, date_published⟩], [], 1,
          [Ev.request, Ev.parse, Ev.matchPhrase,
            Ev.enqueue ⟨url, title, phrase, occurrences, date_published⟩], lm⟩
      else
        ⟨none, [], [], 1, [Ev.request, Ev.parse, Ev.matchPhrase], lm⟩
    | AttemptOutcome.okMalformed =>
      let r := fetchAttempts oracle url phrase rest lastMonth
      ⟨r.result, r.queued, 2 ^ attempt :: r.sleeps, r.requests + 1,
        Ev.request :: Ev.parse :: Ev.sleep (2 ^ attempt) :: r.events, r.lastMonth⟩
    | AttemptOutcome.status code =>
      if code = 429 ∨ code = 500 then
        let r := fetchAttempts oracle url phrase rest lastMonth
        ⟨r.result, r.queued, 2 ^ attempt :: r.sleeps, r.requests + 1,
          Ev.request :: Ev.sleep (2 ^ attempt) :: r.events, r.lastMonth⟩
      else
        let r := fetchAttempts oracle url phrase rest lastMonth
        ⟨r.result, r.queued, r.sleeps, r.requests + 1,
          Ev.request :: r.events, r.lastMonth⟩
    | AttemptOutcome.exc =>
      let r := fetchAttempts oracle url phrase rest lastMonth
      ⟨r.result, r.queued, 2 ^ attempt :: r.sleeps, r.requests + 1,
        Ev.request :: Ev.sleep (2 ^ attempt) :: r.events, r.lastMonth⟩

/-- main.py line 13: asyncio.Semaphore(50). -/
def semaphoreCapacity : Nat := 50

/-- main.py lines 60-99: the whole body runs inside async-with-semaphore, so
the trace opens with an acquire and closes with a release around the entire
three-attempt loop. -/
def extract_text_from_url (oracle : Nat → AttemptOutcome)
    (url phrase lastMonth : String) : FetchResult :=
  let r := fetchAttempts oracle url phrase [0, 1, 2] lastMonth
  ⟨r.result, r.queued, r.sleeps, r.requests,
    Ev.acquire :: r.events ++ [Ev.release], r.lastMonth⟩

/-! ### The sitemap resolver, main.py lines 112-135 -/

/-- Parsed view of a sitemap XML document: the loc texts under url elements
(leaf entries) and under sitemap elements (index entries). -/
structure SitemapDoc where
  urlLocs : List String
  sitemapLocs : List String
deriving DecidableEq

/-- Outcome of one network attempt for a sitemap URL. -/
inductive SitemapOutcome where
  | ok (doc : SitemapDoc)
  | okMalformed
  | status (code : Nat)
  | exc

/-- main.py lines 124-125: findall(url/loc) or findall(sitemap/loc) — the
leaf list if it is non-empty, else the index list. -/
def docLinks (doc : SitemapDoc) : List String :=
  if doc.urlLocs ≠ [] then doc.urlLocs else doc.sitemapLocs

/-- The module-level sitemap_cache dict of main.py line 14, as an
association list in insertion order. -/
abbrev SitemapCache : Type := List (String × List String)

/-- Dictionary lookup in the cache. -/
def cacheLookup (cache : SitemapCache) (url : String) : Option (List String) :=
  match cache with
  | [] => none
  | kv :: rest => if kv.fst = url then some kv.snd else cacheLookup rest url

/-- Dictionary assignment: replace the entry if the key exists,
else append it. -/
def insertCache (cache : SitemapCache) (url : String) (links : List String) :
    SitemapCache :=
  match cache with
  | [] => [(url, links)]
  | kv :: rest =>
    if kv.fst = url then (url, links) :: rest
    else kv :: insertCache rest url links

/-- Result of one get_sitemap_links call: the returned link list, the cache
afterwards, the number of network attempts issued, the backoff sleeps, and
the event trace. -/
structure SitemapResult where
  links : List String
  cache : SitemapCache
  requests : Nat
  sleeps : List Nat
  events : List Ev
deriving DecidableEq

/-- The for-attempt-in-range(3) loop of main.py lines 117-135: on a 200
response the document is parsed, its links are stored into the cache and
returned; a 429/500 status or an exception (which also covers an
ET.fromstring parse error) sleeps 2^attempt and moves on; any other status
moves on with no sleep; falling off the loop returns the empty list without
touching the cache (line 135). -/
def sitemapAttempts (oracle : Nat → SitemapOutcome) (cache : SitemapCache)
    (url : String) : List Nat → SitemapResult
  | [] => ⟨[], cache, 0, [], []⟩
  | attempt :: rest =>
    match oracle attempt with
    | SitemapOutcome.ok doc =>
      ⟨docLinks doc, insertCache cache url (docLinks doc), 1, [],
        [Ev.request, Ev.parse]⟩
    | SitemapOutcome.okMalformed =>
      let r := sitemapAttempts oracle cache url rest
      ⟨r.links, r.cache, r.requests + 1, 2 ^ attempt :: r.sleeps,
        Ev.request :: Ev.parse :: Ev.sleep (2 ^ attempt) :: r.events⟩
    | SitemapOutcome.status code =>
      if code = 429 ∨ code = 500 then
        let r := sitemapAttempts oracle cache url rest
        ⟨r.links, r.cache, r.requests + 1, 2 ^ attempt :: r.sleeps,
          Ev.request :: Ev.sleep (2 ^ attempt) :: r.events⟩
      else
        let r := sitemapAttempts oracle cache url rest
        ⟨r.links, r.cache, r.requests + 1, r.sleeps, Ev.request :: r.events⟩
    | SitemapOutcome.exc =>
      let r := sitemapAttempts oracle cache url rest
      ⟨r.links, r.cache, r.requests + 1, 2 ^ attempt :: r.sleeps,
        Ev.request :: Ev.sleep (2 ^ attempt) :: r.events⟩

/-- main.py lines 112-135: return the cached list on a hit (no network
activity); on a miss run the three-attempt fetch loop.  Note the function
never acquires the semaphore. -/
def get_sitemap_links (oracle : Nat → SitemapOutcome) (cache : SitemapCache)
    (url : String) : SitemapResult :=
  match cacheLookup cache url with
  | some links => ⟨links, cache, 0, [], []⟩
  | none => sitemapAttempts oracle cache url [0, 1, 2]

/-! ### Year filtering and find_articles_in_sitemap, main.py lines 137-152 -/

/-- Numeric value of the four digit characters of t starting at i
(int of the matched group). -/
def fourDigitValAt (t : List Char) (i : Nat) : Nat :=
  ((t.drop i).take 4).foldl (fun acc c => acc * 10 + (c.toNat - 48)) 0

/-- Leftmost match of re.search(r'(\d{4})', link) of main.py line 143:
the first position carrying four consecutive digits, as a number. -/
def firstYearToken (s : String) : Option Nat :=
  match (List.range s.data.length).find? (fun i => digitsAt s.data i 4) with
  | some i => some (fourDigitValAt s.data i)
  | none => none

/-- main.py lines 142-143: a link survives the filter when the leftmost
four-digit run exists and its value lies in [year_from, year_to]. -/
def yearFilter (year_from year_to : Nat) (link : String) : Bool :=
  match firstYearToken link with
  | some y => decide (year_from ≤ y) && decide (y ≤ year_to)
  | none => false

/-- Claim-side predicate, written from the claim's words: the URL contains
some 4-digit year token whose value lies within [year_from, year_to]. -/
def containsYearToken (year_from year_to : Nat) (s : String) : Bool :=
  (List.range s.data.length).any (fun i =>
    digitsAt s.data i 4 && decide (year_from ≤ fourDigitValAt s.data i) &&
      decide (fourDigitValAt s.data i ≤ year_to))

/-- Claim-side predicate: the URL contains four consecutive digits. -/
def hasFourDigitRun (s : String) : Bool :=
  (List.range s.data.length).any (fun i => digitsAt s.data i 4)

/-- The child loop of main.py lines 145-148: resolve each surviving child
sitemap in order, threading the cache, and concatenate the returned links;
also record which sitemap URLs caused actual network requests. -/
def resolveChildren (net : String → Nat → SitemapOutcome) :
    SitemapCache → List String → List String × SitemapCache × List String
  | cache, [] => ([], cache, [])
  | cache, s :: rest =>
    let r := get_sitemap_links (net s) cache s
    let next := resolveChildren net r.cache rest
    (r.links ++ next.fst, next.snd.fst,
      (if r.requests > 0 then [s] else []) ++ next.snd.snd)

/-- Result of one find_articles_in_sitemap call. -/
structure FindArticlesResult where
  matchedUrls : List String
  articleUrls : List String
  childrenResolved : List String
  queued : List MatchRecord
  cache : SitemapCache
  sitemapsFetched : List String
deriving DecidableEq

/-- main.py lines 137-152: resolve the root sitemap, filter its links by
year (lines 142-143), resolve each surviving child (lines 146-148), fetch
every collected article URL with a fresh last_month_seen cell (line 150),
and return the urls whose fetch returned non-None (line 152). -/
def find_articles_in_sitemap (net : String → Nat → SitemapOutcome)
    (pages : String → Nat → AttemptOutcome) (cache : SitemapCache)
    (start_sitemap phrase : String) (year_from year_to : Nat) :
    FindArticlesResult :=
  let r0 := get_sitemap_links (net start_sitemap) cache start_sitemap
  let filtered := r0.links.filter (fun link => yearFilter year_from year_to link)
  let children := resolveChildren net r0.cache filtered
  let fetchResults := children.fst.map
    (fun u => extract_text_from_url (pages u) u phrase "")
  ⟨(fetchResults.map (fun fr => fr.result)).reduceOption,
    children.fst, filtered,
    (fetchResults.map (fun fr => fr.queued)).join,
    children.snd.fst,
    (if r0.requests > 0 then [start_sitemap] else []) ++ children.snd.snd⟩

/-! ### The persistence sink, main.py lines 22-58 -/

/-- The url column of every row of the articles table, in order. -/
def tableUrls (table : List MatchRecord) : List String :=
  table.map (fun r => r.url)

/-- One INSERT OR IGNORE ... (url UNIQUE): a no-op when a row with the same
url exists, else append the row. -/
def insertOrIgnore (table : List MatchRecord) (r : MatchRecord) :
    List MatchRecord :=
  if table.any (fun row => row.url == r.url) then table else table ++ [r]

/-- db.executemany of the INSERT OR IGNORE statement: the rows of the batch
are inserted one after another. -/
def executemanyInsert (table : List MatchRecord) (batch : List MatchRecord) :
    List MatchRecord :=
  batch.foldl insertOrIgnore table

/-- The consumer loop of save_to_db, main.py lines 36-58: take records from
the queue until the None sentinel, buffer them, flush the buffer through
executemany whenever it reaches 10 rows, and flush the remainder after the
sentinel. -/
def saveLoop (table buffer : List MatchRecord) :
    List MatchRecord → List MatchRecord
  | [] => if buffer ≠ [] then executemanyInsert table buffer else table
  | r :: rest =>
    let buffer2 := buffer ++ [r]
    if buffer2.length ≥ 10 then saveLoop (executemanyInsert table buffer2) [] rest
    else saveLoop table buffer2 rest

/-- main.py lines 36-58: the table after the consumer has processed the given
records followed by the None sentinel, starting from the given table. -/
def save_to_db (table records : List MatchRecord) : List MatchRecord :=
  saveLoop table [] records

/-! ### Concrete fixtures used by the claim instances -/

/-- A parsed page with no metadata, no sections, no title. -/
def soupNoMeta : Soup := ⟨[], none, none, none⟩

/-- A parsed page whose single content section contains the target phrase
away from the end of the text. -/
def soupDishy : Soup := ⟨["Dishy Rishi was seen"], some "T", none, none⟩

/-- A sitemap document carrying both leaf and index entries. -/
def docBoth : SitemapDoc := ⟨["https://a/1", "https://a/2"], ["https://idx"]⟩

/-- Page oracle: first attempt 404, then a 200 page containing the phrase. -/
def oracle404ThenOk : Nat → AttemptOutcome := fun n =>
  if n = 0 then AttemptOutcome.status 404 else AttemptOutcome.ok soupDishy

/-- Page oracle: every attempt returns status 500. -/
def oracle500 : Nat → AttemptOutcome := fun _ => AttemptOutcome.status 500

/-- Page oracle: every attempt returns status 404. -/
def oracle404 : Nat → AttemptOutcome := fun _ => AttemptOutcome.status 404

/-- Page oracle: 500 twice, then a 200 page containing the phrase. -/
def oracle500x2ThenOk : Nat → AttemptOutcome := fun n =>
  if n < 2 then AttemptOutcome.status 500 else AttemptOutcome.ok soupDishy

/-- Page oracle: every attempt returns a 200 response with a malformed body. -/
def oracleMalformed : Nat → AttemptOutcome := fun _ => AttemptOutcome.okMalformed

/-- Sitemap oracle: every attempt succeeds with docBoth. -/
def sitemapOracleOk : Nat → SitemapOutcome := fun _ => SitemapOutcome.ok docBoth

/-- Sitemap oracle: every attempt returns status 500. -/
def sitemapOracle500 : Nat → SitemapOutcome := fun _ => SitemapOutcome.status 500

/-- Sitemap oracle: every attempt returns a 200 response whose body makes
ET.fromstring raise. -/
def sitemapOracleMalformed : Nat → SitemapOutcome := fun _ => SitemapOutcome.okMalformed

/-- Network for the year-filter instance: the root resolves to a single child
whose URL contains an out-of-range leftmost year (9999) before an in-range
one (2025); everything else 404s. -/
def c8net : String → Nat → SitemapOutcome := fun u _ =>
  if u = "https://r" then SitemapOutcome.ok ⟨[], ["https://x/9999/2025-sitemap.xml"]⟩
  else SitemapOutcome.status 404

/-- Page network for the year-filter instance: everything 404s. -/
def c8pages : String → Nat → AttemptOutcome := fun _ _ => AttemptOutcome.status 404

/-! ### Lemmas about the text matcher -/

theorem listStartsWith_get? :
    ∀ {p l : List Char}, listStartsWith p l = true →
      ∀ j, j < p.length → l.get? j = p.get? j := by
  intro p
  induction p with
  | nil => intro l _ j hj; simp at hj
  | cons c cs ih =>
    intro l h j hj
    cases l with
    | nil => simp [listStartsWith] at h
    | cons d ds =>
      simp only [listStartsWith, Bool.and_eq_true, beq_iff_eq] at h
      obtain ⟨rfl, h2⟩ := h
      cases j with
      | zero => rfl
      | succ j' =>
        simp only [List.get?]
        exact ih h2 j' (by simpa using hj)

theorem listStartsWith_length :
    ∀ {p l : List Char}, listStartsWith p l = true → p.length ≤ l.length := by
  intro p
  induction p with
  | nil => intro l _; simp
  | cons c cs ih =>
    intro l h
    cases l with
    | nil => simp [listStartsWith] at h
    | cons d ds =>
      simp only [listStartsWith, Bool.and_eq_true] at h
      simpa using ih h.2

theorem word_of_occurs {t p : List Char} (hw : ∀ c ∈ p, isWordChar c = true)
    {i : Nat} (hpre : listStartsWith p (t.drop i) = true) :
    ∀ j, j < p.length → wordAt t (i + j) = true := by
  intro j hj
  have h1 : (t.drop i).get? j = p.get? j := listStartsWith_get? hpre j hj
  have h2 : t.get? (i + j) = p.get? j := by
    rw [← h1, List.get?_drop]
  have h3 : p.get? j = some (p.get ⟨j, hj⟩) := List.get?_eq_get hj
  rw [h3] at h2
  unfold wordAt
  rw [h2]
  exact hw _ (List.get_mem p j hj)

theorem occurs_le {t p : List Char} (hp : p ≠ []) {i : Nat}
    (hpre : listStartsWith p (t.drop i) = true) : i + p.length ≤ t.length := by
  have h1 := listStartsWith_length hpre
  rw [List.length_drop] at h1
  have h2 : 0 < p.length := List.length_pos.mpr hp
  omega

theorem punctRunLen_le : ∀ l : List Char, punctRunLen l ≤ l.length := by
  intro l
  induction l with
  | nil => simp [punctRunLen]
  | cons c cs ih =>
    simp only [punctRunLen]
    split <;> simp <;> omega

theorem punctRunLen_get? :
    ∀ (l : List Char) (j : Nat), j < punctRunLen l →
      ∃ c, l.get? j = some c ∧ isPunctClassChar c = true := by
  intro l
  induction l with
  | nil => intro j hj; simp [punctRunLen] at hj
  | cons c cs ih =>
    intro j hj
    simp only [punctRunLen] at hj
    by_cases hc : isPunctClassChar c = true
    · rw [if_pos hc] at hj
      cases j with
      | zero => exact ⟨c, rfl, hc⟩
      | succ j' => exact ih j' (by omega)
    · rw [if_neg hc] at hj; omega

theorem greedyPunct_some {t : List Char} {q : Nat} :
    ∀ {r k : Nat}, greedyPunct t q r = some k →
      k ≤ r ∧ wordBoundary t (q + k) = true := by
  intro r
  induction r with
  | zero =>
    intro k h
    simp only [greedyPunct] at h
    split at h
    · cases h; constructor; · omega
      · simpa using (by assumption : wordBoundary t q = true)
    · cases h
  | succ r' ih =>
    intro k h
    simp only [greedyPunct] at h
    split at h
    · cases h
      exact ⟨Nat.le_refl _, by assumption⟩
    · obtain ⟨h1, h2⟩ := ih h
      exact ⟨Nat.le_succ_of_le h1, h2⟩

theorem greedyPunct_total {t : List Char} {q : Nat}
    (h : wordBoundary t q = true) :
    ∀ r, ∃ k, greedyPunct t q r = some k := by
  intro r
  induction r with
  | zero => exact ⟨0, by simp [greedyPunct, h]⟩
  | succ r' ih =>
    by_cases hb : wordBoundary t (q + (r' + 1)) = true
    · exact ⟨r' + 1, by simp [greedyPunct, hb]⟩
    · obtain ⟨k, hk⟩ := ih
      exact ⟨k, by simp only [greedyPunct]; rw [if_neg hb]; exact hk⟩

theorem punct_not_word {c : Char} (h : isPunctClassChar c = true) :
    isWordChar c = false := by
  have hm : c ∈ punctClassChars := by
    simpa [isPunctClassChar] using h
  simp only [punctClassChars, List.mem_cons, List.not_mem_nil, or_false] at hm
  rcases hm with rfl|rfl|rfl|rfl|rfl|rfl|rfl|rfl|rfl|rfl|rfl|rfl|rfl|rfl|rfl|rfl <;> decide

theorem word_not_punct {c : Char} (h : isWordChar c = true) :
    isPunctClassChar c = false := by
  by_cases hc : isPunctClassChar c = true
  · rw [punct_not_word hc] at h; cases h
  · simpa using hc

theorem wordAt_exists {t : List Char} {j : Nat} (h : wordAt t j = true) :
    ∃ c, t.get? j = some c ∧ isWordChar c = true := by
  unfold wordAt at h
  cases hg : t.get? j with
  | none => rw [hg] at h; cases h
  | some c => rw [hg] at h; exact ⟨c, rfl, h⟩

theorem punctRunLen_drop_zero {t : List Char} {q : Nat}
    (h : wordAt t q = true) : punctRunLen (t.drop q) = 0 := by
  obtain ⟨c, hc, hcw⟩ := wordAt_exists h
  cases hd : t.drop q with
  | nil => simp [punctRunLen]
  | cons c' tl =>
    have h0 : (t.drop q).get? 0 = some c' := by rw [hd]; rfl
    rw [List.get?_drop] at h0
    rw [Nat.add_zero] at h0
    rw [hc] at h0
    cases h0
    simp [punctRunLen, word_not_punct hcw]

theorem wordBefore_end {t p : List Char} (hp : p ≠ [])
    (hw : ∀ c ∈ p, isWordChar c = true) {i : Nat}
    (hpre : listStartsWith p (t.drop i) = true) :
    wordBefore t (i + p.length) = true := by
  have hplen : 0 < p.length := List.length_pos.mpr hp
  have h1 : i + p.length = (i + (p.length - 1)) + 1 := by omega
  rw [h1]
  simp only [wordBefore]
  exact word_of_occurs hw hpre (p.length - 1) (by omega)

theorem matchLenAt_none_of_not_bounded {t p : List Char} (hp : p ≠ [])
    (hw : ∀ c ∈ p, isWordChar c = true) {i : Nat}
    (hb : boundedOccAt t p i = false) : matchLenAt t p i = none := by
  have hplen : 0 < p.length := List.length_pos.mpr hp
  by_cases hpre : listStartsWith p (t.drop i) = true
  · have hword0 : wordAt t i = true := by
      have h0 := word_of_occurs hw hpre 0 hplen
      simpa using h0
    by_cases hwb : wordBefore t i = true
    · have hcond : wordBoundary t i = false := by
        rw [wordBoundary, hwb, hword0]; rfl
      simp [matchLenAt, hcond]
    · have hwb' : wordBefore t i = false := by simpa using hwb
      have hright : wordAt t (i + p.length) = true := by
        have hb2 := hb
        unfold boundedOccAt at hb2
        rw [hpre, hwb'] at hb2
        simpa using hb2
      have hrun : punctRunLen (t.drop (i + p.length)) = 0 :=
        punctRunLen_drop_zero hright
      have hqb : wordBoundary t (i + p.length) = false := by
        rw [wordBoundary, wordBefore_end hp hw hpre, hright]; rfl
      have hcond : wordBoundary t i = true := by
        rw [wordBoundary, hwb', hword0]; rfl
      simp [matchLenAt, hcond, hpre, hrun, greedyPunct, hqb]
  · have hpre' : listStartsWith p (t.drop i) = false := by simpa using hpre
    simp [matchLenAt, hpre']

theorem matchLenAt_some_of_bounded {t p : List Char} (hp : p ≠ [])
    (hw : ∀ c ∈ p, isWordChar c = true) {i : Nat}
    (hb : boundedOccAt t p i = true) :
    ∃ k, matchLenAt t p i = some (p.length + k) ∧
      k ≤ punctRunLen (t.drop (i + p.length)) := by
  have hplen : 0 < p.length := List.length_pos.mpr hp
  simp only [boundedOccAt, Bool.and_eq_true, Bool.not_eq_true'] at hb
  obtain ⟨⟨hpre, hwb⟩, hwa⟩ := hb
  have hword0 : wordAt t i = true := by
    have h0 := word_of_occurs hw hpre 0 hplen
    simpa using h0
  have hcond : wordBoundary t i = true := by
    rw [wordBoundary, hwb, hword0]; rfl
  have hqb : wordBoundary t (i + p.length) = true := by
    rw [wordBoundary, wordBefore_end hp hw hpre, hwa]; rfl
  obtain ⟨k, hk⟩ := greedyPunct_total hqb (punctRunLen (t.drop (i + p.length)))
  refine ⟨k, ?_, (greedyPunct_some hk).1⟩
  simp [matchLenAt, hcond, hpre, hk]

theorem no_occ_inside {t p : List Char} (hp : p ≠ [])
    (hw : ∀ c ∈ p, isWordChar c = true) {i L : Nat}
    (hb : boundedOccAt t p i = true) (hm : matchLenAt t p i = some L) :
    ∀ j, i < j → j < i + L → boundedOccAt t p j = false := by
  have hplen : 0 < p.length := List.length_pos.mpr hp
  obtain ⟨k, hk, hkr⟩ := matchLenAt_some_of_bounded hp hw hb
  rw [hm] at hk
  have hL : L = p.length + k := by
    exact Option.some.inj hk
  have hpre : listStartsWith p (t.drop i) = true := by
    simp only [boundedOccAt, Bool.and_eq_true] at hb
    exact hb.1.1
  intro j hj1 hj2
  by_cases hcase : j < i + p.length
  · have hwb : wordBefore t j = true := by
      have h1 : j = (j - 1) + 1 := by omega
      rw [h1]
      simp only [wordBefore]
      have h2 : j - 1 = i + (j - 1 - i) := by omega
      rw [h2]
      exact word_of_occurs hw hpre (j - 1 - i) (by omega)
    simp [boundedOccAt, hwb]
  · have hq : i + p.length ≤ j := by omega
    have hjlt : j - (i + p.length) < punctRunLen (t.drop (i + p.length)) := by omega
    obtain ⟨c, hc, hcp⟩ := punctRunLen_get? _ _ hjlt
    rw [List.get?_drop] at hc
    have hje : i + p.length + (j - (i + p.length)) = j := by omega
    rw [hje] at hc
    have hnw : wordAt t j = false := by
      unfold wordAt
      rw [hc]
      exact punct_not_word hcp
    cases hpre2 : listStartsWith p (t.drop j) with
    | false => simp [boundedOccAt, hpre2]
    | true =>
      exfalso
      have h0 := word_of_occurs hw hpre2 0 hplen
      rw [Nat.add_zero] at h0
      rw [h0] at hnw
      cases hnw

theorem matchLenAt_le {t p : List Char} (hp : p ≠ [])
    (hw : ∀ c ∈ p, isWordChar c = true) {i L : Nat}
    (hb : boundedOccAt t p i = true) (hm : matchLenAt t p i = some L) :
    i + L ≤ t.length := by
  obtain ⟨k, hk, hkr⟩ := matchLenAt_some_of_bounded hp hw hb
  rw [hm] at hk
  have hL : L = p.length + k := Option.some.inj hk
  have hpre : listStartsWith p (t.drop i) = true := by
    simp only [boundedOccAt, Bool.and_eq_true] at hb
    exact hb.1.1
  have h1 : i + p.length ≤ t.length := occurs_le hp hpre
  have h2 := punctRunLen_le (t.drop (i + p.length))
  rw [List.length_drop] at h2
  omega

theorem scanCountAux_spec {t p : List Char} (hp : p ≠ [])
    (hw : ∀ c ∈ p, isWordChar c = true) :
    ∀ fuel i, t.length + 1 ≤ fuel + i →
      scanCountAux t p fuel i
        = (List.range' i (t.length + 1 - i)).countP (fun j => boundedOccAt t p j) := by
  intro fuel
  induction fuel with
  | zero =>
    intro i hfi
    have h0 : t.length + 1 - i = 0 := by omega
    rw [h0]
    simp [scanCountAux]
  | succ fuel ih =>
    intro i hfi
    by_cases hi : i ≤ t.length
    · cases hm : matchLenAt t p i with
      | none =>
        simp only [scanCountAux, if_pos hi, hm]
        have hb : boundedOccAt t p i = false := by
          cases hbc : boundedOccAt t p i with
          | false => rfl
          | true =>
            obtain ⟨k, hk, _⟩ := matchLenAt_some_of_bounded hp hw hbc
            rw [hm] at hk; cases hk
        have hsub : t.length + 1 - i = (t.length - i) + 1 := by omega
        rw [hsub, List.range'_succ, List.countP_cons]
        have hsub2 : t.length + 1 - (i + 1) = t.length - i := by omega
        rw [ih (i + 1) (by omega), hsub2, hb]
        simp
      | some L =>
        simp only [scanCountAux, if_pos hi, hm]
        have hb : boundedOccAt t p i = true := by
          cases hbc : boundedOccAt t p i with
          | true => rfl
          | false =>
            rw [matchLenAt_none_of_not_bounded hp hw hbc] at hm; cases hm
        obtain ⟨k, hk, hkr⟩ := matchLenAt_some_of_bounded hp hw hb
        rw [hm] at hk
        have hL : L = p.length + k := Option.some.inj hk
        have hplen : 0 < p.length := List.length_pos.mpr hp
        have hL1 : 1 ≤ L := by omega
        have hmax : max L 1 = L := by omega
        have hiL : i + L ≤ t.length := matchLenAt_le hp hw hb hm
        rw [hmax, ih (i + L) (by omega)]
        have hsplit : t.length + 1 - i = (t.length + 1 - (i + L)) + L := by omega
        rw [hsplit]
        have happ := List.range'_append i L (t.length + 1 - (i + L)) 1
        rw [Nat.one_mul] at happ
        rw [← happ, List.countP_append]
        have hfirst : (List.range' i L).countP (fun j => boundedOccAt t p j) = 1 := by
          have hLsub : L = (L - 1) + 1 := by omega
          rw [hLsub, List.range'_succ, List.countP_cons]
          have hz : (List.range' (i + 1) (L - 1)).countP
              (fun j => boundedOccAt t p j) = 0 := by
            apply List.countP_eq_zero.mpr
            intro a ha
            obtain ⟨ha1, ha2⟩ := List.mem_range'_1.mp ha
            have hno := no_occ_inside hp hw hb hm a (by omega) (by omega)
            simp [hno]
          rw [hz, hb]
          simp
        rw [hfirst]
    · have h0 : t.length + 1 - i = 0 := by omega
      rw [h0]
      simp [scanCountAux, hi]

/-! ### Claim C1 -/

/-- C1 (counterexample): the claim fails as stated for every text and phrase:
with text "a a a" and phrase "a a" the code counts 1 match (the trailing
punctuation-class star of its pattern swallows the separator, merging the two
bounded occurrences), while the bounded-occurrence count of the claim is 2. -/
theorem C1_counterexample :
    ¬ (count_phrase_occurrences "a a a" "a a"
        = specCountOccurrences "a a a" "a a") := by
  decide

/-- C1 (amended): for every text and every non-empty phrase consisting
entirely of word characters after case folding, the count returned by
count_phrase_occurrences equals the number of contiguous substrings equal to
the phrase after case folding that are bounded on both sides by a non-word
character, start-of-string or end-of-string; in particular
countOccurrences("dishy rishi", "rishi") = 1 and
countOccurrences("dishyrishi", "rishi") = 0. -/
theorem C1_amended :
    (∀ text phrase : String, lowerChars phrase.data ≠ [] →
        (∀ c ∈ lowerChars phrase.data, isWordChar c = true) →
        count_phrase_occurrences text phrase = specCountOccurrences text phrase)
    ∧ count_phrase_occurrences "dishy rishi" "rishi" = 1
    ∧ count_phrase_occurrences "dishyrishi" "rishi" = 0 := by
  refine ⟨?_, by decide, by decide⟩
  intro text phrase hp hw
  unfold count_phrase_occurrences specCountOccurrences
  rw [scanCountAux_spec hp hw ((lowerChars text.data).length + 1) 0 (by omega)]
  rw [List.range_eq_range']
  simp

/-- C1 (witness): the amended equivalence evaluated at a concrete text and a
concrete all-word-character phrase. -/
theorem C1_witness :
    count_phrase_occurrences "rishi sunak and rishi" "rishi"
      = specCountOccurrences "rishi sunak and rishi" "rishi" :=
  C1_amended.1 "rishi sunak and rishi" "rishi" (by decide) (by decide)

/-! ### Claim C10 -/

/-- C10 (counterexample): the claim says the count is 0 whenever the phrase
is empty, but on text "a" with the empty phrase the pattern \b[class]*\b has
two (empty) matches, so the code returns 2, not 0. -/
theorem C10_counterexample : count_phrase_occurrences "a" "" ≠ 0 := by
  decide

/-- C10 (amended): count_phrase_occurrences never raises (it is a total
function); it returns 0 for every phrase whenever the text is empty; for an
empty phrase on a non-empty text it may return a positive value, counting the
word-boundary positions of the text: countOccurrences("a", "") = 2. -/
theorem C10_amended :
    (∀ phrase : String, count_phrase_occurrences "" phrase = 0)
    ∧ count_phrase_occurrences "a" "" = 2 :=
  ⟨fun _ => rfl, by decide⟩

/-! ### Claim C3 -/

theorem insertOrIgnore_nodup {table : List MatchRecord} {r : MatchRecord}
    (h : (tableUrls table).Nodup) :
    (tableUrls (insertOrIgnore table r)).Nodup := by
  unfold insertOrIgnore
  by_cases hany : table.any (fun row => row.url == r.url) = true
  · rw [if_pos hany]; exact h
  · rw [if_neg hany]
    have hnotmem : r.url ∉ tableUrls table := by
      intro hmem
      apply hany
      rw [List.any_eq_true]
      obtain ⟨row, hrow, hurl⟩ := List.mem_map.mp hmem
      exact ⟨row, hrow, by simp [hurl]⟩
    unfold tableUrls
    rw [List.map_append]
    refine List.Nodup.append h (List.nodup_singleton _) ?_
    intro a ha hb
    simp only [List.map_cons, List.map_nil, List.mem_singleton] at hb
    subst hb
    exact hnotmem ha

theorem executemanyInsert_nodup {batch : List MatchRecord} :
    ∀ {table : List MatchRecord}, (tableUrls table).Nodup →
      (tableUrls (executemanyInsert table batch)).Nodup := by
  induction batch with
  | nil => intro table h; exact h
  | cons r rest ih =>
    intro table h
    exact ih (insertOrIgnore_nodup h)

theorem saveLoop_nodup {records : List MatchRecord} :
    ∀ {table buffer : List MatchRecord}, (tableUrls table).Nodup →
      (tableUrls (saveLoop table buffer records)).Nodup := by
  induction records with
  | nil =>
    intro table buffer h
    unfold saveLoop
    split
    · exact executemanyInsert_nodup h
    · exact h
  | cons r rest ih =>
    intro table buffer h
    unfold saveLoop
    by_cases hlen : (buffer ++ [r]).length ≥ 10
    · simp only [hlen, if_true]
      exact ih (executemanyInsert_nodup h)
    · simp only [hlen, if_false]
      exact ih h

/-- C3: for every sequence of records submitted to the sink, at most one row
per URL is ever persisted: if the url column of the table is duplicate-free
then it remains so after the consumer has processed any record sequence (a
record whose URL already exists is silently dropped by INSERT OR IGNORE), and
submitting the same record twice into an empty store yields exactly the one
row. -/
theorem C3_at_most_one_row :
    (∀ table records : List MatchRecord, (tableUrls table).Nodup →
        (tableUrls (save_to_db table records)).Nodup)
    ∧ (∀ r : MatchRecord, save_to_db [] [r, r] = [r]) := by
  constructor
  · intro table records h
    exact saveLoop_nodup h
  · intro r
    simp [save_to_db, saveLoop, executemanyInsert, insertOrIgnore]

/-- C3 (witness): the dedup invariant evaluated on a concrete run: an empty
table stays duplicate-free after two submissions of the same record. -/
theorem C3_witness :
    (tableUrls (save_to_db []
      [⟨"https://u", "t", "p", 1, "d"⟩, ⟨"https://u", "t", "p", 1, "d"⟩])).Nodup :=
  C3_at_most_one_row.1 [] _ (by decide)

/-! ### Claim C2 -/

theorem fetchAttempts_requests_le (oracle : Nat → AttemptOutcome)
    (url phrase : String) :
    ∀ (attempts : List Nat) (lastMonth : String),
      (fetchAttempts oracle url phrase attempts lastMonth).requests
        ≤ attempts.length := by
  intro attempts
  induction attempts with
  | nil => intro lm; simp [fetchAttempts]
  | cons a rest ih =>
    intro lm
    cases hor : oracle a with
    | ok soup =>
      simp only [fetchAttempts, hor]
      split
      · simp
      · simp
    | okMalformed =>
      simp only [fetchAttempts, hor, List.length_cons]
      exact Nat.succ_le_succ (ih lm)
    | status code =>
      simp only [fetchAttempts, hor, List.length_cons]
      split
      · exact Nat.succ_le_succ (ih lm)
      · exact Nat.succ_le_succ (ih lm)
    | exc =>
      simp only [fetchAttempts, hor, List.length_cons]
      exact Nat.succ_le_succ (ih lm)

/-- C2 (counterexample): the claim says an attempt returning a non-2xx status
other than 429/500 (e.g. 404) is not retried, but the code's status check has
no else branch, so a 404 falls through and the loop simply proceeds to the
next attempt: with a 404 on attempt 0 and a matching 200 page on attempt 1,
the fetch issues 2 requests, sleeps nowhere, and returns the url. -/
theorem C2_counterexample :
    (extract_text_from_url oracle404ThenOk "https://u" "dishy rishi" "").result
        = some "https://u"
    ∧ (extract_text_from_url oracle404ThenOk "https://u" "dishy rishi" "").requests = 2
    ∧ (extract_text_from_url oracle404ThenOk "https://u" "dishy rishi" "").sleeps = [] := by
  refine ⟨by decide, by decide, by decide⟩

/-- C2 (amended): every fetch makes at most 3 attempts; an attempt failing
with 429/500 or a transport failure sleeps exactly 2^attempt time units
(including after the final attempt, where no retry follows); an attempt
returning any other non-200 status (e.g. 404) is retried immediately with no
delay; after exhausting the attempts the fetch yields None rather than an
error: all-500 gives no result after 3 requests with sleeps 1,2,4; all-404
gives no result after 3 requests with no sleeps; 500,500,200-with-match gives
the url with sleeps 1,2. -/
theorem C2_amended :
    (∀ (oracle : Nat → AttemptOutcome) (url phrase lastMonth : String),
        (extract_text_from_url oracle url phrase lastMonth).requests ≤ 3)
    ∧ ((extract_text_from_url oracle500 "https://u" "p" "").result = none
        ∧ (extract_text_from_url oracle500 "https://u" "p" "").requests = 3
        ∧ (extract_text_from_url oracle500 "https://u" "p" "").sleeps = [1, 2, 4])
    ∧ ((extract_text_from_url oracle404 "https://u" "p" "").result = none
        ∧ (extract_text_from_url oracle404 "https://u" "p" "").requests = 3
        ∧ (extract_text_from_url oracle404 "https://u" "p" "").sleeps = [])
    ∧ ((extract_text_from_url oracle500x2ThenOk "https://u" "dishy rishi" "").result
          = some "https://u"
        ∧ (extract_text_from_url oracle500x2ThenOk "https://u" "dishy rishi" "").sleeps
          = [1, 2]) := by
  refine ⟨?_, ⟨by decide, by decide, by decide⟩, ⟨by decide, by decide, by decide⟩,
    by decide, by decide⟩
  intro oracle url phrase lastMonth
  have h := fetchAttempts_requests_le oracle url phrase [0, 1, 2] lastMonth
  simpa [extract_text_from_url] using h

/-! ### Claim C5 -/

theorem sitemapAttempts_no_acquire (oracle : Nat → SitemapOutcome)
    (cache : SitemapCache) (url : String) :
    ∀ attempts : List Nat,
      Ev.acquire ∉ (sitemapAttempts oracle cache url attempts).events := by
  intro attempts
  induction attempts with
  | nil => simp [sitemapAttempts]
  | cons a rest ih =>
    cases hor : oracle a with
    | ok doc => simp [sitemapAttempts, hor]
    | okMalformed => simp [sitemapAttempts, hor, ih]
    | status code =>
      simp only [sitemapAttempts, hor]
      split
      · simp [ih]
      · simp [ih]
    | exc => simp [sitemapAttempts, hor, ih]

theorem get_sitemap_links_no_acquire (oracle : Nat → SitemapOutcome)
    (cache : SitemapCache) (url : String) :
    Ev.acquire ∉ (get_sitemap_links oracle cache url).events := by
  unfold get_sitemap_links
  cases hc : cacheLookup cache url with
  | some links => simp
  | none => exact sitemapAttempts_no_acquire oracle cache url [0, 1, 2]

/-- C5 (counterexample): the claim says the semaphore is held only around the
in-flight network request and is also acquired by the sitemap resolver; in
the code the acquire is the first event and the release the last event of the
whole page-fetch body — parsing and matching happen strictly between them —
and the sitemap resolver performs its request without any acquire. -/
theorem C5_counterexample :
    (extract_text_from_url (fun _ => AttemptOutcome.ok soupNoMeta)
        "https://u" "p" "").events
      = [Ev.acquire, Ev.request, Ev.parse, Ev.matchPhrase, Ev.release]
    ∧ Ev.acquire ∉ (get_sitemap_links sitemapOracleOk [] "https://s").events
    ∧ Ev.request ∈ (get_sitemap_links sitemapOracleOk [] "https://s").events := by
  refine ⟨by decide, by decide, by decide⟩

/-- C5 (amended): the counting semaphore has capacity 50 and is held around
the entire body of the page fetcher — its trace starts with the acquire and
ends with the release, and on a 200 response both the parse and the phrase
match happen while it is held — while the sitemap resolver never acquires the
semaphore at all. -/
theorem C5_amended :
    semaphoreCapacity = 50
    ∧ (∀ (oracle : Nat → AttemptOutcome) (url phrase lastMonth : String),
        (extract_text_from_url oracle url phrase lastMonth).events.head?
            = some Ev.acquire
        ∧ (extract_text_from_url oracle url phrase lastMonth).events.getLast?
            = some Ev.release)
    ∧ (∀ (oracle : Nat → AttemptOutcome) (url phrase lastMonth : String)
        (soup : Soup), oracle 0 = AttemptOutcome.ok soup →
        Ev.parse ∈ (extract_text_from_url oracle url phrase lastMonth).events
        ∧ Ev.matchPhrase ∈ (extract_text_from_url oracle url phrase lastMonth).events)
    ∧ (∀ (oracle : Nat → SitemapOutcome) (cache : SitemapCache) (url : String),
        Ev.acquire ∉ (get_sitemap_links oracle cache url).events) := by
  refine ⟨rfl, ?_, ?_, get_sitemap_links_no_acquire⟩
  · intro oracle url phrase lastMonth
    constructor
    · simp [extract_text_from_url]
    · simp only [extract_text_from_url]
      rw [List.getLast?_concat]
  · intro oracle url phrase lastMonth soup h0
    constructor
    · simp only [extract_text_from_url, fetchAttempts, h0]
      split
      · simp
      · simp
    · simp only [extract_text_from_url, fetchAttempts, h0]
      split
      · simp
      · simp

/-- C5 (witness): the held-while-parsing part of the amended claim evaluated
at a concrete oracle whose first attempt succeeds. -/
theorem C5_witness :
    Ev.parse ∈ (extract_text_from_url (fun _ => AttemptOutcome.ok soupDishy)
        "https://u" "p" "").events
    ∧ Ev.matchPhrase ∈ (extract_text_from_url (fun _ => AttemptOutcome.ok soupDishy)
        "https://u" "p" "").events :=
  C5_amended.2.2.1 (fun _ => AttemptOutcome.ok soupDishy) "https://u" "p" "" soupDishy rfl

/-! ### Claim C6 -/

/-- C6 (counterexample): the claim says a parse failure on a 2xx body
propagates as an unhandled condition and is not converted into a no-result
outcome; in the code the bare except around the attempt body catches it, so
three malformed 200 responses are retried with backoff sleeps 1, 2, 4 and the
fetch completes normally with the no-result outcome None. -/
theorem C6_counterexample :
    (extract_text_from_url oracleMalformed "https://u" "p" "").result = none
    ∧ (extract_text_from_url oracleMalformed "https://u" "p" "").requests = 3
    ∧ (extract_text_from_url oracleMalformed "https://u" "p" "").sleeps = [1, 2, 4] := by
  refine ⟨by decide, by decide, by decide⟩

/-- C6 (amended): a parse failure on a successful (2xx) response body is
caught by the per-attempt exception handler and treated like a transient
failure: the attempt sleeps 2^attempt and is retried, and after exhausting
the 3 attempts the page fetch yields None (and the sitemap resolver yields []
leaving the cache untouched); the failure never propagates out of the fetch
operation. -/
theorem C6_amended :
    (∀ (url phrase lastMonth : String),
        (extract_text_from_url oracleMalformed url phrase lastMonth).result = none
        ∧ (extract_text_from_url oracleMalformed url phrase lastMonth).requests = 3
        ∧ (extract_text_from_url oracleMalformed url phrase lastMonth).sleeps = [1, 2, 4])
    ∧ ((get_sitemap_links sitemapOracleMalformed [] "https://s").links = []
        ∧ (get_sitemap_links sitemapOracleMalformed [] "https://s").cache = []
        ∧ (get_sitemap_links sitemapOracleMalformed [] "https://s").sleeps = [1, 2, 4]) := by
  refine ⟨?_, by decide, by decide, by decide⟩
  intro url phrase lastMonth
  refine ⟨rfl, rfl, rfl⟩

/-! ### Claim C4 -/

theorem cacheLookup_insert_self {cache : SitemapCache} {url : String}
    {links : List String} :
    cacheLookup (insertCache cache url links) url = some links := by
  induction cache with
  | nil => simp [insertCache, cacheLookup]
  | cons kv rest ih =>
    simp only [insertCache]
    by_cases h : kv.fst = url
    · simp [cacheLookup, h]
    · simp [cacheLookup, h, ih]

/-- C4 (counterexample): the claim says the resolved sequence is stored in
the cache before returning even when it is empty after exhausting retries; in
the code the cache write sits inside the 200 branch only, so a resolution
that exhausts its retries (three 500s) returns [] with the cache untouched,
and a second resolution of the same URL fetches again (3 more requests
instead of the claimed zero). -/
theorem C4_counterexample :
    (get_sitemap_links sitemapOracle500 [] "https://s").links = []
    ∧ (get_sitemap_links sitemapOracle500 [] "https://s").cache = []
    ∧ (get_sitemap_links sitemapOracle500
        (get_sitemap_links sitemapOracle500 [] "https://s").cache
        "https://s").requests = 3 := by
  refine ⟨by decide, by decide, by decide⟩

/-- C4 (amended): the resolved sequence is stored in the cache only on a
successful fetch-and-parse; in that case resolving the same sitemap URL twice
issues exactly one network fetch, the second call returning the cached
sequence with zero requests; but a resolution that exhausts its retries
returns [] without caching, so a later call for the same URL fetches the
network again. -/
theorem C4_amended :
    ∀ (oracle oracle2 : Nat → SitemapOutcome) (cache : SitemapCache)
      (url : String) (doc : SitemapDoc),
      cacheLookup cache url = none → oracle 0 = SitemapOutcome.ok doc →
      (get_sitemap_links oracle cache url).links = docLinks doc
      ∧ (get_sitemap_links oracle cache url).requests = 1
      ∧ cacheLookup (get_sitemap_links oracle cache url).cache url
          = some (docLinks doc)
      ∧ (get_sitemap_links oracle2
          (get_sitemap_links oracle cache url).cache url).requests = 0
      ∧ (get_sitemap_links oracle2
          (get_sitemap_links oracle cache url).cache url).links = docLinks doc := by
  intro oracle oracle2 cache url doc hmiss hok
  have h1 : get_sitemap_links oracle cache url
      = ⟨docLinks doc, insertCache cache url (docLinks doc), 1, [],
          [Ev.request, Ev.parse]⟩ := by
    unfold get_sitemap_links
    rw [hmiss]
    simp [sitemapAttempts, hok]
  rw [h1]
  have h2 : cacheLookup (insertCache cache url (docLinks doc)) url
      = some (docLinks doc) := cacheLookup_insert_self
  refine ⟨rfl, rfl, h2, ?_, ?_⟩
  · simp [get_sitemap_links, h2]
  · simp [get_sitemap_links, h2]

/-- C4 (witness): the success-path caching behaviour evaluated at a concrete
oracle, empty cache and concrete URL. -/
theorem C4_witness :
    (get_sitemap_links sitemapOracleOk [] "https://s").links = docLinks docBoth
    ∧ (get_sitemap_links sitemapOracleOk [] "https://s").requests = 1
    ∧ cacheLookup (get_sitemap_links sitemapOracleOk [] "https://s").cache "https://s"
        = some (docLinks docBoth)
    ∧ (get_sitemap_links sitemapOracle500
        (get_sitemap_links sitemapOracleOk [] "https://s").cache "https://s").requests = 0
    ∧ (get_sitemap_links sitemapOracle500
        (get_sitemap_links sitemapOracleOk [] "https://s").cache "https://s").links
        = docLinks docBoth :=
  C4_amended sitemapOracleOk sitemapOracle500 [] "https://s" docBoth rfl rfl

/-! ### Claim C9 -/

/-- C9: when a single sitemap document contains both index entries
(sitemap/loc) and leaf entries (url/loc) and both are non-empty, resolve
returns the leaf entries: the code builds its list from findall(url/loc) or
findall(sitemap/loc), so a non-empty leaf set wins. -/
theorem C9_leaf_preferred :
    ∀ (oracle : Nat → SitemapOutcome) (cache : SitemapCache) (url : String)
      (doc : SitemapDoc),
      cacheLookup cache url = none → oracle 0 = SitemapOutcome.ok doc →
      doc.urlLocs ≠ [] → doc.sitemapLocs ≠ [] →
      (get_sitemap_links oracle cache url).links = doc.urlLocs := by
  intro oracle cache url doc hmiss hok hurl _hsit
  unfold get_sitemap_links
  rw [hmiss]
  simp [sitemapAttempts, hok, docLinks, hurl]

/-- C9 (witness): leaf preference evaluated at a concrete document carrying
both kinds of entries. -/
theorem C9_witness :
    (get_sitemap_links sitemapOracleOk [] "https://s").links = docBoth.urlLocs :=
  C9_leaf_preferred sitemapOracleOk [] "https://s" docBoth rfl rfl
    (by decide) (by decide)

/-! ### Claim C7 -/

/-- C7 (counterexample): the claim says the sentinel is the string "unknown";
the code's sentinel is the Russian string "Неизвестно", so on a document with
no metadata date and a URL without a date pattern the result differs from
"unknown". -/
theorem C7_counterexample :
    extract_date soupNoMeta "https://thesun.co.uk/news/story" ≠ "unknown"
    ∧ extract_date soupNoMeta "https://thesun.co.uk/news/story" = "Неизвестно" := by
  refine ⟨by decide, by decide⟩

/-- C7 (amended): extract_date returns the first 10 characters of the
article:published_time meta content when that tag is present with non-empty
content; when neither meta tag is present it falls back to the first
YYYY/MM/DD segment of the URL reassembled with dashes (a URL containing
2025/03/14 yields "2025-03-14"), and otherwise returns the sentinel string
"Неизвестно"; it never raises and always returns a string (it is a total
function into String). -/
theorem C7_amended :
    (∀ (soup : Soup) (url : String) (content : String),
        soup.metaPublished = some (some content) → content ≠ "" →
        extract_date soup url = String.mk (content.data.take 10))
    ∧ (∀ (soup : Soup) (url : String),
        soup.metaPublished = none → soup.metaNameDate = none →
        extract_date soup url = urlDateOrUnknown url)
    ∧ extract_date soupNoMeta "https://thesun.co.uk/2025/03/14/story" = "2025-03-14"
    ∧ extract_date soupNoMeta "https://thesun.co.uk/news/story" = "Неизвестно" := by
  refine ⟨?_, ?_, by decide, by decide⟩
  · intro soup url content h1 h2
    simp [extract_date, h1, h2]
  · intro soup url h1 h2
    simp [extract_date, h1, h2]

/-- C7 (witness): the metadata branch of the amended claim evaluated at a
concrete page carrying an ISO-8601 published-time value. -/
theorem C7_witness :
    extract_date ⟨[], none, some (some "2025-03-14T10:00:00Z"), none⟩ "https://u"
      = String.mk ("2025-03-14T10:00:00Z".data.take 10) :=
  C7_amended.1 ⟨[], none, some (some "2025-03-14T10:00:00Z"), none⟩ "https://u"
    "2025-03-14T10:00:00Z" rfl (by decide)

/-! ### Claim C8 -/

theorem yearFilter_contains {yf yt : Nat} {link : String}
    (h : yearFilter yf yt link = true) : containsYearToken yf yt link = true := by
  unfold yearFilter firstYearToken at h
  cases hf : (List.range link.data.length).find? (fun i => digitsAt link.data i 4) with
  | none => rw [hf] at h; cases h
  | some i =>
    rw [hf] at h
    simp only [Bool.and_eq_true, decide_eq_true_eq] at h
    unfold containsYearToken
    rw [List.any_eq_true]
    refine ⟨i, List.mem_of_find?_eq_some hf, ?_⟩
    have hd := List.find?_some hf
    simp [hd, h.1, h.2]

theorem noFourDigit_excluded {yf yt : Nat} {link : String}
    (h : hasFourDigitRun link = false) : yearFilter yf yt link = false := by
  unfold hasFourDigitRun at h
  unfold yearFilter firstYearToken
  have hf : (List.range link.data.length).find?
      (fun i => digitsAt link.data i 4) = none := by
    rw [List.find?_eq_none]
    intro a ha hpa
    have hany : (List.range link.data.length).any
        (fun i => digitsAt link.data i 4) = true :=
      List.any_eq_true.mpr ⟨a, ha, hpa⟩
    rw [h] at hany
    cases hany
  rw [hf]

/-- C8 (counterexample): the claim says every child URL containing an
in-range 4-digit year token is recursively resolved; the code tests only the
leftmost 4-digit run, so a child URL containing 9999 before 2025 is excluded
from resolution for range [2025, 2025] even though it contains the in-range
token 2025: no child is resolved and only the root is fetched. -/
theorem C8_counterexample :
    (find_articles_in_sitemap c8net c8pages [] "https://r" "p" 2025 2025).childrenResolved
        = []
    ∧ (find_articles_in_sitemap c8net c8pages [] "https://r" "p" 2025 2025).sitemapsFetched
        = ["https://r"]
    ∧ containsYearToken 2025 2025 "https://x/9999/2025-sitemap.xml" = true := by
  refine ⟨by decide, by decide, by decide⟩

/-- C8 (amended): findArticles resolves exactly those child sitemap URLs
whose leftmost run of 4 consecutive digits, read as a number, lies within
[yearFrom, yearTo]; consequently every resolved child contains a 4-digit year
token in range, and every child lacking any 4-digit run is excluded — but a
child whose first 4-digit run is out of range is excluded even if a later
in-range token occurs.  With range [2025, 2025] and children
2024-sitemap.xml, 2025-sitemap.xml, about-sitemap.xml, only the 2025 sitemap
survives the filter. -/
theorem C8_amended :
    (∀ (net : String → Nat → SitemapOutcome) (pages : String → Nat → AttemptOutcome)
        (cache : SitemapCache) (root phrase : String) (yf yt : Nat),
        (find_articles_in_sitemap net pages cache root phrase yf yt).childrenResolved
          = (get_sitemap_links (net root) cache root).links.filter
              (fun link => yearFilter yf yt link))
    ∧ (∀ (yf yt : Nat) (link : String), yearFilter yf yt link = true →
          containsYearToken yf yt link = true)
    ∧ (∀ (yf yt : Nat) (link : String), hasFourDigitRun link = false →
          yearFilter yf yt link = false)
    ∧ ["https://x/2024-sitemap.xml", "https://x/2025-sitemap.xml",
        "https://x/about-sitemap.xml"].filter (fun link => yearFilter 2025 2025 link)
        = ["https://x/2025-sitemap.xml"] := by
  refine ⟨?_, fun _ _ _ h => yearFilter_contains h,
    fun _ _ _ h => noFourDigit_excluded h, by decide⟩
  intro net pages cache root phrase yf yt
  rfl

/-- C8 (witness): the inclusion direction of the amended claim evaluated at
the concrete in-range child URL. -/
theorem C8_witness :
    containsYearToken 2025 2025 "https://x/2025-sitemap.xml" = true :=
  C8_amended.2.1 2025 2025 "https://x/2025-sitemap.xml" (by decide)
